import Mathlib

set_option maxHeartbeats 1000000

/-! Verification of the lazy-pagination and cross-page-selection logic of
`src/Component/DataTableComponent.tsx`, shallowly embedded in Lean.

JS strings are modelled as `List Char` (one entry per code unit), JS numbers
in integer positions as `ℕ`/`ℤ`, and the float division appearing in the
`useEffect` hook over `ℚ`.  A fetch against the backing API is modelled as a
`DataSource` function; `none` stands for a rejected fetch (network error,
non-success status or unparseable body), in which case the thrown exception
propagates out of the enclosing `async` function, so the `setX` state writes
that come after the failing `await` never execute. -/

/-- the `Artwork` interface of the component, with nullable fields as `Option`. -/
structure Artwork where
  id : ℕ
  title : List Char
  place_of_origin : Option (List Char)
  artist_display : List Char
  inscriptions : Option (List Char)
  date_start : ℤ
  date_end : ℤ
  image_id : Option (List Char)
deriving DecidableEq

/-- the component-local state: one field per `useState` hook (the two overlay
refs are omitted; they hold no data-model state). -/
structure ComponentState where
  artworks : List Artwork
  totalRecords : ℕ
  loading : Bool
  first : ℕ
  rows : ℕ
  selectedArtworks : List Artwork
  rowCount : ℕ
  hoveredImage : Option (List Char)
deriving DecidableEq

/-- a backing data source: maps `page` and `limit` to an optional response
`(data.data, data.pagination.total)`; `none` models a failed fetch. -/
def DataSource : Type := ℕ → ℕ → Option (List Artwork × ℕ)

/-- the value of `Math.ceil(n / rows)` for natural `n` and positive `rows`. -/
def jsCeil (n rows : ℕ) : ℕ := (n + rows - 1) / rows

/-- the value of `l.slice(0, m)` for an integer `m` (a negative `m` counts
back from the end of the array, as in JS). -/
def jsSlice (l : List Artwork) (m : ℤ) : List Artwork :=
  if m < 0 then l.take ((l.length + m).toNat) else l.take m.toNat

/-- the `truncateText` helper: identity when the text fits within the limit,
otherwise `text.slice(0, charLimit)` (no ellipsis is appended). -/
def truncateText (text : List Char) (charLimit : ℕ) : List Char :=
  if text.length ≤ charLimit then text else text.take charLimit

/-- the JS `x || dflt` idiom on a nullable string: both `null` and the empty
string are falsy. -/
def jsOrElse (x : Option (List Char)) (dflt : List Char) : List Char :=
  match x with
  | none => dflt
  | some t => if t = [] then dflt else t

/-- the `inscriptionsBodyTemplate` column renderer, as the text content of the
rendered span: `truncateText(artwork.inscriptions || 'N/A', 24)`. -/
def inscriptionsBodyTemplate (artwork : Artwork) : List Char :=
  truncateText (jsOrElse artwork.inscriptions ("N/A".toList)) 24

/-- the `fetchData` function.  `setLoading(true)` runs first; if the fetch or
the body parse fails, the exception propagates and none of the later `setX`
calls run, so the state keeps `loading := true` and the previous `artworks`;
on success the remaining three writes run. -/
def fetchData (src : DataSource) (page limit : ℕ) (s : ComponentState) :
    ComponentState :=
  let s1 : ComponentState := { s with loading := true }
  match src page limit with
  | none => s1
  | some (records, total) =>
      { s1 with artworks := records, totalRecords := total, loading := false }

/-- the request issued by the `useEffect` hook: `fetchData(first / rows + 1, rows)`.
The page argument uses JS number division (no flooring), modelled over `ℚ`;
the second component is the `limit` sent to the data source. -/
def useEffectRequest (first rows : ℕ) : ℚ × ℕ :=
  ((first : ℚ) / (rows : ℚ) + 1, rows)

/-- the `onRowSelect` handler: stores the selection list handed over by the
table widget. -/
def onRowSelect (s : ComponentState) (value : List Artwork) : ComponentState :=
  { s with selectedArtworks := value }

/-- Modelled from the spec: the per-row checkbox toggle itself lives inside the
table widget library (PrimeReact), not under `src/`; the component only stores
the updated set via `onRowSelect`.  Spec Contract A: `toggle(recordId)` adds
the id if absent and removes it if present, with no fetch side effects. -/
def toggle (recordId : ℕ) (sel : Finset ℕ) : Finset ℕ :=
  if recordId ∈ sel then sel.erase recordId else insert recordId sel

/-- the `for (let page = 1; page <= pages; page++)` loop of
`handleRowSelection`, by recursion on the number of loop iterations left
(`remaining = pages + 1 - page`; the final iteration, where the source tests
`page === pages`, is the one with `remaining = 1`).  Returns the accumulated
`newSelection` — or `none` if a fetch rejected, in which case the exception
aborts the whole function — together with the number of fetches issued. -/
def selectLoop (src : DataSource) (rows : ℕ) :
    ℕ → ℕ → ℤ → List Artwork → Option (List Artwork) × ℕ
  | 0, _page, _rowsToFetch, acc => (some acc, 0)
  | remaining + 1, page, rowsToFetch, acc =>
    match src page rows with
    | none => (none, 1)
    | some (fetchedData, _total) =>
      let acc' := if remaining = 0 then acc ++ jsSlice fetchedData rowsToFetch
                  else acc ++ fetchedData
      let rtf' := if remaining = 0 then rowsToFetch
                  else rowsToFetch - (rows : ℤ)
      if rtf' ≤ 0 then (some acc', 1)
      else
        let rest := selectLoop src rows remaining (page + 1) rtf' acc'
        (rest.1, rest.2 + 1)

/-- one call of `handleRowSelection`: computes `pages = Math.ceil(rowCount / rows)`,
runs the fetch loop starting from `rowsToFetch = rowCount`, and — only when no
fetch rejected — executes `setSelectedArtworks(newSelection)` and
`setRowCount(0)`.  Returns the state observable after the call, the number of
fetches issued and whether the returned promise resolved. -/
def handleRowSelectionRun (src : DataSource) (s : ComponentState) :
    ComponentState × ℕ × Bool :=
  match selectLoop src s.rows (jsCeil s.rowCount s.rows) 1 (s.rowCount : ℤ) [] with
  | (none, fetches) => (s, fetches, false)
  | (some newSelection, fetches) =>
      ({ s with selectedArtworks := newSelection, rowCount := 0 }, fetches, true)

/-- concatenation of the pages `f start, f (start + 1), ..., f (start + cnt - 1)`. -/
def pagesConcat (f : ℕ → List Artwork) : ℕ → ℕ → List Artwork
  | _start, 0 => []
  | start, cnt + 1 => f start ++ pagesConcat f (start + 1) cnt

/-- an artwork with a given id and empty text fields, for concrete scenarios. -/
def mkArt (i : ℕ) : Artwork := ⟨i, [], none, [], none, 0, 0, none⟩

/-- page `p` (1-based) of a demo data source serving 12 records per page. -/
def demoPage (p : ℕ) : List Artwork :=
  (List.range 12).map (fun i => mkArt ((p - 1) * 12 + i))

/-- a demo data source: every page holds 12 records, reported total 50. -/
def demoSrc : DataSource := fun p _limit => some (demoPage p, 50)

/-- a demo data source whose third (and any later) page fetch rejects. -/
def demoFailSrc : DataSource :=
  fun p _limit => if p ≤ 2 then some (demoPage p, 50) else none

/-- a data source whose every fetch rejects. -/
def failSrc : DataSource := fun _ _ => none

/-- a data source answering every fetch with an empty page. -/
def emptySrc : DataSource := fun _ _ => some ([], 0)

/-- the component state right after the user typed 25 into the row-count input
(the §8 property-7 scenario: `pageSize = 12`, `selectFirst(25)`). -/
def demoState : ComponentState :=
  { artworks := [], totalRecords := 50, loading := false, first := 0,
    rows := 12, selectedArtworks := [], rowCount := 25, hoveredImage := none }

theorem selectLoop_zero (src : DataSource) (rows page : ℕ) (rtf : ℤ)
    (acc : List Artwork) : selectLoop src rows 0 page rtf acc = (some acc, 0) := rfl

theorem selectLoop_succ (src : DataSource) (rows remaining page : ℕ) (rtf : ℤ)
    (acc : List Artwork) :
    selectLoop src rows (remaining + 1) page rtf acc
      = match src page rows with
        | none => (none, 1)
        | some (fetchedData, _total) =>
          let acc' := if remaining = 0 then acc ++ jsSlice fetchedData rtf
                      else acc ++ fetchedData
          let rtf' := if remaining = 0 then rtf else rtf - (rows : ℤ)
          if rtf' ≤ 0 then (some acc', 1)
          else
            let rest := selectLoop src rows remaining (page + 1) rtf' acc'
            (rest.1, rest.2 + 1) := rfl

theorem jsCeil_pos (n rows : ℕ) (hrows : 0 < rows) (hn : 0 < n) :
    0 < jsCeil n rows := by
  have h : rows ≤ n + rows - 1 := by omega
  exact Nat.div_pos h hrows

theorem jsCeil_bracket (n rows : ℕ) (hrows : 0 < rows) (hn : 0 < n) :
    n ≤ rows * jsCeil n rows ∧ rows * jsCeil n rows < n + rows := by
  have hdm := Nat.div_add_mod (n + rows - 1) rows
  have hm : (n + rows - 1) % rows < rows := Nat.mod_lt _ hrows
  unfold jsCeil
  generalize rows * ((n + rows - 1) / rows) = q at *
  omega

theorem jsCeil_pred_lt (n rows : ℕ) (hrows : 0 < rows) (hn : 0 < n) :
    rows * (jsCeil n rows - 1) < n := by
  obtain ⟨hle, hlt⟩ := jsCeil_bracket n rows hrows hn
  have hp := jsCeil_pos n rows hrows hn
  obtain ⟨p, hp'⟩ : ∃ p, jsCeil n rows = p + 1 := ⟨jsCeil n rows - 1, by omega⟩
  rw [hp'] at hle hlt ⊢
  simp only [Nat.add_sub_cancel]
  have h2 : rows * (p + 1) = rows * p + rows := by ring
  rw [h2] at hle hlt
  generalize rows * p = q at *
  omega

theorem pagesConcat_length (f : ℕ → List Artwork) (rows : ℕ) :
    ∀ (cnt start : ℕ),
      (∀ p, start ≤ p → p < start + cnt → (f p).length = rows) →
      (pagesConcat f start cnt).length = rows * cnt := by
  intro cnt
  induction cnt with
  | zero => intro start _; simp [pagesConcat]
  | succ d ih =>
      intro start h
      have h1 : (f start).length = rows := h start le_rfl (by omega)
      have h2 := ih (start + 1) (fun p hp1 hp2 => h p (by omega) (by omega))
      simp only [pagesConcat, List.length_append, h1, h2]
      ring

theorem selectLoop_spec (src : DataSource) (rows : ℕ) (f : ℕ → List Artwork)
    (tot : ℕ → ℕ) :
    ∀ (d page : ℕ) (rtf : ℤ) (acc : List Artwork),
      (∀ p, page ≤ p → p ≤ page + d → src p rows = some (f p, tot p)) →
      (∀ p, page ≤ p → p ≤ page + d → (f p).length = rows) →
      (rows : ℤ) * d < rtf → rtf ≤ (rows : ℤ) * ((d + 1 : ℕ) : ℤ) →
      selectLoop src rows (d + 1) page rtf acc
        = (some (acc ++ pagesConcat f page d ++
            (f (page + d)).take (rtf - (rows : ℤ) * d).toNat), d + 1) := by
  intro d
  induction d with
  | zero =>
      intro page rtf acc hsrc _hlen hlo _hhi
      have hs : src page rows = some (f page, tot page) :=
        hsrc page le_rfl (by omega)
      have hpos : 0 < rtf := by simpa using hlo
      have hns : ¬ rtf < 0 := by omega
      have hnle : ¬ rtf ≤ 0 := by omega
      rw [selectLoop_succ, hs]
      simp [jsSlice, hns, hnle, pagesConcat, selectLoop_zero]
  | succ d ih =>
      intro page rtf acc hsrc hlen hlo hhi
      have hs : src page rows = some (f page, tot page) :=
        hsrc page le_rfl (by omega)
      have h0 : (0 : ℤ) ≤ (rows : ℤ) * d := by positivity
      have hx : (rows : ℤ) * (d : ℤ) + (rows : ℤ) < rtf := by
        push_cast at hlo; linarith
      have hne : ¬ (rtf - (rows : ℤ) ≤ 0) := by linarith
      have hsrc2 : ∀ p, page + 1 ≤ p → p ≤ page + 1 + d →
          src p rows = some (f p, tot p) :=
        fun p a b => hsrc p (by omega) (by omega)
      have hlen2 : ∀ p, page + 1 ≤ p → p ≤ page + 1 + d → (f p).length = rows :=
        fun p a b => hlen p (by omega) (by omega)
      have hlo2 : (rows : ℤ) * d < rtf - (rows : ℤ) := by linarith
      have hhi2 : rtf - (rows : ℤ) ≤ (rows : ℤ) * ((d + 1 : ℕ) : ℤ) := by
        push_cast at hhi ⊢; linarith
      rw [selectLoop_succ, hs]
      simp only [Nat.succ_ne_zero, if_false, ite_false]
      rw [if_neg hne]
      rw [ih (page + 1) (rtf - (rows : ℤ)) (acc ++ f page) hsrc2 hlen2 hlo2 hhi2]
      have e1 : page + 1 + d = page + (d + 1) := by omega
      have e2 : rtf - (rows : ℤ) - (rows : ℤ) * (d : ℤ)
          = rtf - (rows : ℤ) * (((d + 1 : ℕ)) : ℤ) := by push_cast; ring
      rw [e1, e2]
      simp [pagesConcat, List.append_assoc]

theorem selectLoop_fail (src : DataSource) (rows : ℕ) (f : ℕ → List Artwork)
    (tot : ℕ → ℕ) :
    ∀ (d page : ℕ) (rtf : ℤ) (acc : List Artwork),
      (∀ p, page ≤ p → p < page + d → src p rows = some (f p, tot p)) →
      (rows : ℤ) * d < rtf →
      src (page + d) rows = none →
      selectLoop src rows (d + 1) page rtf acc = (none, d + 1) := by
  intro d
  induction d with
  | zero =>
      intro page rtf acc _ _ hfail
      rw [Nat.add_zero] at hfail
      rw [selectLoop_succ, hfail]
  | succ d ih =>
      intro page rtf acc hsrc hlo hfail
      have hs : src page rows = some (f page, tot page) :=
        hsrc page le_rfl (by omega)
      have h0 : (0 : ℤ) ≤ (rows : ℤ) * d := by positivity
      have hx : (rows : ℤ) * (d : ℤ) + (rows : ℤ) < rtf := by
        push_cast at hlo; linarith
      have hne : ¬ (rtf - (rows : ℤ) ≤ 0) := by linarith
      have hsrc2 : ∀ p, page + 1 ≤ p → p < page + 1 + d →
          src p rows = some (f p, tot p) :=
        fun p a b => hsrc p (by omega) (by omega)
      have hlo2 : (rows : ℤ) * d < rtf - (rows : ℤ) := by linarith
      have hfail2 : src (page + 1 + d) rows = none := by
        have e1 : page + 1 + d = page + (d + 1) := by omega
        rw [e1]; exact hfail
      rw [selectLoop_succ, hs]
      simp only [Nat.succ_ne_zero, if_false, ite_false]
      rw [if_neg hne]
      rw [ih (page + 1) (rtf - (rows : ℤ)) (acc ++ f page) hsrc2 hlo2 hfail2]

theorem selectLoop_count (src : DataSource) (rows : ℕ) :
    ∀ (d page : ℕ) (rtf : ℤ) (acc : List Artwork),
      (∀ p, page ≤ p → p ≤ page + d → (src p rows).isSome = true) →
      (rows : ℤ) * d < rtf →
      (selectLoop src rows (d + 1) page rtf acc).2 = d + 1 ∧
        ((selectLoop src rows (d + 1) page rtf acc).1).isSome = true := by
  intro d
  induction d with
  | zero =>
      intro page rtf acc hsrc _hlo
      obtain ⟨⟨fd, t⟩, hp⟩ :=
        Option.isSome_iff_exists.mp (hsrc page le_rfl (by omega))
      rw [selectLoop_succ, hp]
      by_cases hb : rtf ≤ 0 <;> simp [hb, selectLoop_zero]
  | succ d ih =>
      intro page rtf acc hsrc hlo
      obtain ⟨⟨fd, t⟩, hp⟩ :=
        Option.isSome_iff_exists.mp (hsrc page le_rfl (by omega))
      have h0 : (0 : ℤ) ≤ (rows : ℤ) * d := by positivity
      have hx : (rows : ℤ) * (d : ℤ) + (rows : ℤ) < rtf := by
        push_cast at hlo; linarith
      have hne : ¬ (rtf - (rows : ℤ) ≤ 0) := by linarith
      have hsrc2 : ∀ p, page + 1 ≤ p → p ≤ page + 1 + d →
          (src p rows).isSome = true :=
        fun p a b => hsrc p (by omega) (by omega)
      have hlo2 : (rows : ℤ) * d < rtf - (rows : ℤ) := by linarith
      obtain ⟨h1, h2⟩ := ih (page + 1) (rtf - (rows : ℤ)) (acc ++ fd) hsrc2 hlo2
      rw [selectLoop_succ, hp]
      simp only [Nat.succ_ne_zero, if_false, ite_false]
      rw [if_neg hne]
      simp [h1, h2]

theorem jsCeil_split (rows k r : ℕ) (hrows : 0 < rows) (hr : r < rows) :
    jsCeil (k * rows + r) rows = k + (if 0 < r then 1 else 0) := by
  rcases Nat.eq_zero_or_pos r with h | h
  · subst h
    rw [show (if 0 < (0 : ℕ) then 1 else 0) = 0 from rfl, Nat.add_zero,
      Nat.add_zero]
    unfold jsCeil
    have e1 : k * rows + rows - 1 = rows * k + (rows - 1) := by
      rw [Nat.mul_comm rows k]
      generalize k * rows = m
      omega
    rw [e1, Nat.mul_add_div hrows, Nat.div_eq_of_lt (by omega), Nat.add_zero]
  · rw [if_pos h]
    unfold jsCeil
    have e0 : rows * (k + 1) = k * rows + rows := by ring
    have e1 : k * rows + r + rows - 1 = rows * (k + 1) + (r - 1) := by
      rw [e0]
      generalize k * rows = m
      omega
    rw [e1, Nat.mul_add_div hrows, Nat.div_eq_of_lt (by omega), Nat.add_zero]

/-- the component state used for the zero-request witness (`rowCount = 0`). -/
def zeroState : ComponentState := { demoState with rowCount := 0 }

/-- the component state requesting 24 records (`pageSize = 12`). -/
def shortState : ComponentState := { demoState with rowCount := 24 }

/-- C5: for every `pageSize > 0`, `selectFirst(0, pageSize)` — running
`handleRowSelection` with `rowCount = 0` — performs zero page fetches and
results in an empty SelectionSet (and the call resolves). -/
theorem selectFirst_zero_fetches (src : DataSource) (s : ComponentState)
    (hrows : 0 < s.rows) (hn : s.rowCount = 0) :
    (handleRowSelectionRun src s).2.1 = 0 ∧
    (handleRowSelectionRun src s).1.selectedArtworks = [] ∧
    (handleRowSelectionRun src s).2.2 = true := by
  have hceil : jsCeil s.rowCount s.rows = 0 := by
    rw [hn]; unfold jsCeil; exact Nat.div_eq_of_lt (by omega)
  unfold handleRowSelectionRun
  rw [hceil, selectLoop_zero]
  simp

theorem selectFirst_zero_fetches_witness :
    (handleRowSelectionRun demoSrc zeroState).2.1 = 0 ∧
    (handleRowSelectionRun demoSrc zeroState).1.selectedArtworks = [] ∧
    (handleRowSelectionRun demoSrc zeroState).2.2 = true :=
  selectFirst_zero_fetches demoSrc zeroState (by decide) rfl

/-- C2: with `rowCount = n = k * pageSize + r > 0`, `0 ≤ r < pageSize`, and a
source on which every fetched page returns exactly `pageSize` records,
`handleRowSelection` issues exactly `ceil(n / pageSize) = k + (r > 0 ? 1 : 0)`
sequential page fetches over pages `1, ..., ceil(n / pageSize)`, keeps only
the first `n - pageSize * (pages - 1)` records of the final page, and yields
a selection of size exactly `n`. -/
theorem selectFirst_pages_and_size (src : DataSource) (s : ComponentState)
    (f : ℕ → List Artwork) (tot : ℕ → ℕ) (k r : ℕ)
    (hrows : 0 < s.rows) (hkr : s.rowCount = k * s.rows + r) (hr : r < s.rows)
    (hpos : 0 < s.rowCount)
    (hsrc : ∀ p, 1 ≤ p → p ≤ jsCeil s.rowCount s.rows →
      src p s.rows = some (f p, tot p))
    (hlen : ∀ p, 1 ≤ p → p ≤ jsCeil s.rowCount s.rows →
      (f p).length = s.rows) :
    jsCeil s.rowCount s.rows = k + (if 0 < r then 1 else 0) ∧
    (handleRowSelectionRun src s).2.1 = jsCeil s.rowCount s.rows ∧
    (handleRowSelectionRun src s).2.2 = true ∧
    (handleRowSelectionRun src s).1.selectedArtworks
      = pagesConcat f 1 (jsCeil s.rowCount s.rows - 1) ++
        (f (jsCeil s.rowCount s.rows)).take
          (s.rowCount - s.rows * (jsCeil s.rowCount s.rows - 1)) ∧
    (handleRowSelectionRun src s).1.selectedArtworks.length = s.rowCount := by
  have hsplit : jsCeil s.rowCount s.rows = k + (if 0 < r then 1 else 0) := by
    rw [hkr]; exact jsCeil_split s.rows k r hrows hr
  obtain ⟨hle, hlt⟩ := jsCeil_bracket s.rowCount s.rows hrows hpos
  have hpred := jsCeil_pred_lt s.rowCount s.rows hrows hpos
  have hp := jsCeil_pos s.rowCount s.rows hrows hpos
  obtain ⟨d, hd⟩ : ∃ d, jsCeil s.rowCount s.rows = d + 1 :=
    ⟨jsCeil s.rowCount s.rows - 1, by omega⟩
  unfold handleRowSelectionRun
  rw [hd] at hle hlt hpred hsrc hlen hsplit ⊢
  simp only [Nat.add_sub_cancel] at hpred ⊢
  have hloZ : ((s.rows : ℤ)) * (d : ℤ) < (s.rowCount : ℤ) := by
    exact_mod_cast hpred
  have hhiZ : ((s.rowCount : ℤ)) ≤ (s.rows : ℤ) * (((d + 1 : ℕ)) : ℤ) := by
    exact_mod_cast hle
  have hsrc2 : ∀ p, 1 ≤ p → p ≤ 1 + d → src p s.rows = some (f p, tot p) :=
    fun p a b => hsrc p a (by omega)
  have hlen2 : ∀ p, 1 ≤ p → p ≤ 1 + d → (f p).length = s.rows :=
    fun p a b => hlen p a (by omega)
  have hloop := selectLoop_spec src s.rows f tot d 1 (s.rowCount : ℤ) []
    hsrc2 hlen2 hloZ hhiZ
  have hmul : ((s.rows : ℤ) * (d : ℤ)) = ((s.rows * d : ℕ) : ℤ) := by
    push_cast; ring
  have htn : (((s.rowCount : ℤ)) - (s.rows : ℤ) * (d : ℤ)).toNat
      = s.rowCount - s.rows * d := by
    rw [hmul]
    generalize s.rows * d = m at hpred ⊢
    omega
  rw [htn] at hloop
  rw [hloop]
  have hidx : 1 + d = d + 1 := by omega
  rw [hidx] at hloop ⊢
  have hlenfin : (f (d + 1)).length = s.rows := hlen (d + 1) (by omega) le_rfl
  have hlencat : (pagesConcat f 1 d).length = s.rows * d :=
    pagesConcat_length f s.rows d 1 (fun p a b => hlen p a (by omega))
  refine ⟨hsplit, rfl, rfl, by simp, ?_⟩
  simp only [List.nil_append, List.length_append, hlencat, List.length_take,
    hlenfin]
  have hle2 : s.rowCount ≤ s.rows * d + s.rows := by
    have : s.rows * (d + 1) = s.rows * d + s.rows := by ring
    omega
  generalize s.rows * d = m at hpred hle2 ⊢
  omega

theorem selectFirst_pages_and_size_witness :
    jsCeil demoState.rowCount demoState.rows = 2 + (if 0 < 1 then 1 else 0) ∧
    (handleRowSelectionRun demoSrc demoState).2.1 =
      jsCeil demoState.rowCount demoState.rows ∧
    (handleRowSelectionRun demoSrc demoState).2.2 = true ∧
    (handleRowSelectionRun demoSrc demoState).1.selectedArtworks
      = pagesConcat demoPage 1 (jsCeil demoState.rowCount demoState.rows - 1) ++
        (demoPage (jsCeil demoState.rowCount demoState.rows)).take
          (demoState.rowCount -
            demoState.rows * (jsCeil demoState.rowCount demoState.rows - 1)) ∧
    (handleRowSelectionRun demoSrc demoState).1.selectedArtworks.length
      = demoState.rowCount :=
  selectFirst_pages_and_size demoSrc demoState demoPage (fun _ => 50) 2 1
    (by decide) (by decide) (by decide) (by decide)
    (fun p _ _ => rfl) (fun p _ _ => by simp [demoPage]; rfl)

/-- C1: if the `(k+1)`-th page fetch rejects during a bulk selection spanning
`k + 1` pages (the first `k` fetches succeeding), the whole operation fails
and the component state after the call — in particular the SelectionSet —
equals its value before the call: the accumulated records live only in a
local variable and `setSelectedArtworks` is never reached. -/
theorem selectFirst_atomic_on_failure (src : DataSource) (s : ComponentState)
    (f : ℕ → List Artwork) (tot : ℕ → ℕ) (k : ℕ)
    (hrows : 0 < s.rows) (hpos : 0 < s.rowCount)
    (hpages : jsCeil s.rowCount s.rows = k + 1)
    (hsrc : ∀ p, 1 ≤ p → p ≤ k → src p s.rows = some (f p, tot p))
    (hfail : src (k + 1) s.rows = none) :
    handleRowSelectionRun src s = (s, k + 1, false) := by
  have hpred := jsCeil_pred_lt s.rowCount s.rows hrows hpos
  rw [hpages] at hpred
  simp only [Nat.add_sub_cancel] at hpred
  have hloZ : ((s.rows : ℤ)) * (k : ℤ) < (s.rowCount : ℤ) := by
    exact_mod_cast hpred
  have hsrc2 : ∀ p, 1 ≤ p → p < 1 + k → src p s.rows = some (f p, tot p) :=
    fun p a b => hsrc p a (by omega)
  have hfail2 : src (1 + k) s.rows = none := by
    rw [Nat.add_comm]; exact hfail
  have hloop := selectLoop_fail src s.rows f tot k 1 (s.rowCount : ℤ) []
    hsrc2 hloZ hfail2
  unfold handleRowSelectionRun
  rw [hpages, hloop]

theorem selectFirst_atomic_on_failure_witness :
    handleRowSelectionRun demoFailSrc demoState = (demoState, 3, false) :=
  selectFirst_atomic_on_failure demoFailSrc demoState demoPage (fun _ => 50) 2
    (by decide) (by decide) (by decide)
    (fun p h1 h2 => by simp only [demoFailSrc]; rw [if_pos h2])
    (by decide)

/-- C6: on successful completion, `handleRowSelection` replaces the entire
SelectionSet with exactly the identifiers accumulated by the fetch loop
(which starts from the empty list): the outcome is independent of whatever
selection was held before the call — a destructive overwrite, never a merge. -/
theorem selectFirst_overwrites_selection (src : DataSource) (s : ComponentState)
    (prior : List Artwork)
    (hok : (handleRowSelectionRun src s).2.2 = true) :
    (handleRowSelectionRun src
        { s with selectedArtworks := prior }).1.selectedArtworks
      = (handleRowSelectionRun src s).1.selectedArtworks ∧
    (∃ fetches, selectLoop src s.rows (jsCeil s.rowCount s.rows) 1
        (s.rowCount : ℤ) [] =
      (some ((handleRowSelectionRun src s).1.selectedArtworks), fetches)) := by
  unfold handleRowSelectionRun at hok ⊢
  dsimp only at hok ⊢
  rcases hsl : selectLoop src s.rows (jsCeil s.rowCount s.rows) 1
      (s.rowCount : ℤ) [] with ⟨res, fetches⟩
  rcases res with _ | newSel
  · rw [hsl] at hok
    exact absurd hok Bool.false_ne_true
  · exact ⟨rfl, fetches, rfl⟩

theorem selectFirst_overwrites_selection_witness :
    (handleRowSelectionRun demoSrc
        { demoState with selectedArtworks := [mkArt 999] }).1.selectedArtworks
      = (handleRowSelectionRun demoSrc demoState).1.selectedArtworks ∧
    (∃ fetches, selectLoop demoSrc demoState.rows
        (jsCeil demoState.rowCount demoState.rows) 1
        (demoState.rowCount : ℤ) [] =
      (some ((handleRowSelectionRun demoSrc demoState).1.selectedArtworks),
        fetches)) :=
  selectFirst_overwrites_selection demoSrc demoState [mkArt 999] (by decide)

/-- C7 (amended): the fetch loop never inspects how many records a page
returned — its early exit depends only on the requested count — so whenever
every fetch succeeds it issues exactly `ceil(rowCount / pageSize)` fetches,
even when pages come back short or empty, and terminates after that many. -/
theorem selectFirst_fetches_all_pages (src : DataSource) (s : ComponentState)
    (hrows : 0 < s.rows) (hpos : 0 < s.rowCount)
    (hsrc : ∀ p, 1 ≤ p → p ≤ jsCeil s.rowCount s.rows →
      (src p s.rows).isSome = true) :
    (handleRowSelectionRun src s).2.1 = jsCeil s.rowCount s.rows ∧
    (handleRowSelectionRun src s).2.2 = true := by
  have hpred := jsCeil_pred_lt s.rowCount s.rows hrows hpos
  have hp := jsCeil_pos s.rowCount s.rows hrows hpos
  obtain ⟨d, hd⟩ : ∃ d, jsCeil s.rowCount s.rows = d + 1 :=
    ⟨jsCeil s.rowCount s.rows - 1, by omega⟩
  unfold handleRowSelectionRun
  rw [hd] at hpred hsrc ⊢
  simp only [Nat.add_sub_cancel] at hpred
  have hloZ : ((s.rows : ℤ)) * (d : ℤ) < (s.rowCount : ℤ) := by
    exact_mod_cast hpred
  have hsrc2 : ∀ p, 1 ≤ p → p ≤ 1 + d → (src p s.rows).isSome = true :=
    fun p a b => hsrc p a (by omega)
  obtain ⟨h1, h2⟩ := selectLoop_count src s.rows d 1 (s.rowCount : ℤ) []
    hsrc2 hloZ
  rcases hsl : selectLoop src s.rows (d + 1) 1 (s.rowCount : ℤ) []
    with ⟨res, fetches⟩
  rw [hsl] at h1 h2
  rcases res with _ | newSel
  · simp at h2
  · simp only at h1
    simp [h1]

theorem selectFirst_fetches_all_pages_witness :
    (handleRowSelectionRun emptySrc shortState).2.1 =
      jsCeil shortState.rowCount shortState.rows ∧
    (handleRowSelectionRun emptySrc shortState).2.2 = true :=
  selectFirst_fetches_all_pages emptySrc shortState (by decide) (by decide)
    (fun _ _ _ => rfl)

/-- C7 counterexample: against a source whose every page is empty, requesting
24 records at page size 12 has page 1 return `0 < 12` records, yet the loop
still issues all `ceil(24/12) = 2` fetches — it does not terminate early on a
short or empty page. -/
theorem selectFirst_no_short_page_exit :
    emptySrc 1 shortState.rows = some ([], 0) ∧
    jsCeil shortState.rowCount shortState.rows = 2 ∧
    (handleRowSelectionRun emptySrc shortState).2.1 = 2 ∧
    ¬ ((handleRowSelectionRun emptySrc shortState).2.1 <
        jsCeil shortState.rowCount shortState.rows) := by decide

/-- C3 counterexample: at `offset = 5`, `pageSize = 12` the `useEffect` hook
computes the page argument with JS number division — `5 / 12 + 1 = 17/12` —
which is not the 1-based page number `floor(5 / 12) + 1 = 1`. -/
theorem useEffectRequest_not_floor :
    useEffectRequest 5 12 ≠ (((5 / 12 + 1 : ℕ) : ℚ), 12) := by
  intro h
  have h1 := congrArg Prod.fst h
  norm_num [useEffectRequest] at h1

/-- C3 (amended): for every `pageSize > 0` and every offset that is a multiple
of the page size — the only offsets the pagination widget produces — the
`useEffect` hook requests the 1-based page number `floor(offset/pageSize) + 1`
from the data source, together with the given page size as the limit. -/
theorem useEffectRequest_floor_of_dvd (first rows : ℕ) (hrows : 0 < rows)
    (hdvd : rows ∣ first) :
    useEffectRequest first rows = (((first / rows + 1 : ℕ) : ℚ), rows) := by
  obtain ⟨k, rfl⟩ := hdvd
  have h0 : (rows : ℚ) ≠ 0 := Nat.cast_ne_zero.mpr (by omega)
  have hdivN : rows * k / rows = k := Nat.mul_div_cancel_left k hrows
  have hdivQ : ((rows * k : ℕ) : ℚ) / (rows : ℚ) = (k : ℚ) := by
    push_cast
    rw [mul_comm, mul_div_assoc, div_self h0, mul_one]
  unfold useEffectRequest
  rw [hdivQ, hdivN]
  push_cast
  rfl

theorem useEffectRequest_floor_of_dvd_witness :
    useEffectRequest 24 12 = (((24 / 12 + 1 : ℕ) : ℚ), 12) :=
  useEffectRequest_floor_of_dvd 24 12 (by decide) ⟨2, rfl⟩

/-- the component state showing a previously loaded page, used to evaluate
`fetchData` at a failing fetch. -/
def loadedState : ComponentState :=
  { artworks := [mkArt 1, mkArt 2], totalRecords := 2, loading := false,
    first := 0, rows := 12, selectedArtworks := [], rowCount := 0,
    hoveredImage := none }

/-- C4 (code-bug evidence): when the page fetch fails, the embedded
`fetchData` leaves the previously displayed records and total intact, but the
loading flag — set to `true` on entry — is never cleared, and the component
has no error state at all to surface the failure. -/
theorem fetchData_failure_keeps_loading :
    (fetchData failSrc 1 12 loadedState).artworks = loadedState.artworks ∧
    (fetchData failSrc 1 12 loadedState).totalRecords
      = loadedState.totalRecords ∧
    (fetchData failSrc 1 12 loadedState).loading = true := by decide

/-- C8: toggling the same record id twice returns the SelectionSet to its
original contents — the toggle is an involution (it adds the id when absent
and removes it when present, and the model involves no fetches). -/
theorem toggle_involution (recordId : ℕ) (sel : Finset ℕ) :
    toggle recordId (toggle recordId sel) = sel := by
  unfold toggle
  by_cases h : recordId ∈ sel
  · rw [if_pos h, if_neg (Finset.not_mem_erase recordId sel),
      Finset.insert_erase h]
  · rw [if_neg h, if_pos (Finset.mem_insert_self recordId sel),
      Finset.erase_insert h]

/-- an artwork whose inscription field is the given nullable string, used for
concrete rendering scenarios. -/
def artInsc (o : Option (List Char)) : Artwork := ⟨7, [], none, [], o, 0, 0, none⟩

/-- a 25-character inscription, one character over the 24-character budget. -/
def longInsc : List Char := List.replicate 25 'a'

/-- C9 counterexample: on a 25-character inscription the renderer outputs the
bare 24-character prefix — the output has length 24 and contains no ellipsis
character, so no ellipsis is appended when the text exceeds the budget. -/
theorem inscriptions_no_ellipsis :
    inscriptionsBodyTemplate (artInsc (some longInsc)) = List.replicate 24 'a' ∧
    (inscriptionsBodyTemplate (artInsc (some longInsc))).length = 24 ∧
    '…' ∉ inscriptionsBodyTemplate (artInsc (some longInsc)) := by decide

/-- C9 (amended): the inscriptions column renderer truncates the inscription
to the fixed 24-character budget by plain slicing — no ellipsis is appended —
and displays the fallback label `N/A` when the inscription is absent (null or
empty). -/
theorem inscriptions_render (a : Artwork) :
    (a.inscriptions = none ∨ a.inscriptions = some [] →
      inscriptionsBodyTemplate a = "N/A".toList) ∧
    (∀ t, a.inscriptions = some t → 24 < t.length →
      inscriptionsBodyTemplate a = t.take 24) ∧
    (∀ t, a.inscriptions = some t → t ≠ [] → t.length ≤ 24 →
      inscriptionsBodyTemplate a = t) := by
  refine ⟨?_, ?_, ?_⟩
  · rintro (h | h) <;>
      simp [inscriptionsBodyTemplate, jsOrElse, truncateText, h]
  · intro t ht hlong
    rw [inscriptionsBodyTemplate, ht]
    have hne : t ≠ [] := by
      intro he; rw [he] at hlong; simp at hlong
    simp only [jsOrElse, if_neg hne]
    rw [truncateText, if_neg (by omega)]
  · intro t ht hne hshort
    rw [inscriptionsBodyTemplate, ht]
    simp only [jsOrElse, if_neg hne]
    rw [truncateText, if_pos hshort]

theorem inscriptions_render_witness :
    inscriptionsBodyTemplate (artInsc none) = "N/A".toList ∧
    inscriptionsBodyTemplate (artInsc (some longInsc)) = longInsc.take 24 ∧
    inscriptionsBodyTemplate (artInsc (some ['h', 'i'])) = ['h', 'i'] :=
  ⟨(inscriptions_render (artInsc none)).1 (Or.inl rfl),
   (inscriptions_render (artInsc (some longInsc))).2.1 longInsc rfl (by decide),
   (inscriptions_render (artInsc (some ['h', 'i']))).2.2 ['h', 'i'] rfl
     (by decide) (by decide)⟩

/-- C10: `truncateText` is the identity on strings within the character
limit; on longer strings its result is a length-`c` prefix of the input; and
it is idempotent. -/
theorem truncateText_spec (t : List Char) (c : ℕ) :
    (t.length ≤ c → truncateText t c = t) ∧
    (c < t.length → (truncateText t c).length = c ∧
      ∃ u, truncateText t c ++ u = t) ∧
    truncateText (truncateText t c) c = truncateText t c := by
  refine ⟨?_, ?_, ?_⟩
  · intro h; rw [truncateText, if_pos h]
  · intro h
    rw [truncateText, if_neg (by omega)]
    constructor
    · rw [List.length_take]; omega
    · exact ⟨t.drop c, List.take_append_drop c t⟩
  · by_cases h : t.length ≤ c
    · have ht : truncateText t c = t := by rw [truncateText, if_pos h]
      rw [ht]; exact ht
    · have hlen : (truncateText t c).length = c := by
        rw [truncateText, if_neg h, List.length_take]; omega
      rw [truncateText, if_pos (by omega)]

theorem truncateText_spec_witness :
    (truncateText ['a', 'b'] 3 = ['a', 'b']) ∧
    ((truncateText ['a', 'b', 'c', 'd'] 2).length = 2 ∧
      ∃ u, truncateText ['a', 'b', 'c', 'd'] 2 ++ u = ['a', 'b', 'c', 'd']) :=
  ⟨(truncateText_spec ['a', 'b'] 3).1 (by decide),
   (truncateText_spec ['a', 'b', 'c', 'd'] 2).2.1 (by decide)⟩
